import Mathlib

/-!
Verification of the ordering and authorization logic of the kanban server
(src/server/src/index.js).  The SQL routes are shallowly embedded as pure
functions over explicit row lists: board_members rows, lists rows and tasks
rows.  Each definition mirrors one route or one SQL statement of the source.
-/

namespace Todo

/-- Roles stored in board_members.role; the three values the server uses. -/
inductive Role
  | member
  | admin
  | owner
deriving DecidableEq, Repr

/-- Numeric rank of a role, the `roles` table inside checkBoardPermission
(index.js lines 923-927): member 0, admin 1, owner 2. -/
def Role.rank : Role → Nat
  | Role.member => 0
  | Role.admin => 1
  | Role.owner => 2

/-- One row of board_members: (board_id, user_id, role). -/
structure MemberRow where
  boardId : Nat
  userId : Nat
  role : Role
deriving DecidableEq, Repr

/-- One row of tasks: (id, list_id, position). -/
structure TaskRow where
  id : Nat
  listId : Nat
  position : Nat
deriving DecidableEq, Repr

/-- One row of lists: (id, board_id, position). -/
structure ListRow where
  id : Nat
  boardId : Nat
  position : Nat
deriving DecidableEq, Repr

/-- Error kinds the routes surface: 403 Forbidden, 404 NotFound, and a 500
from a catch-all error handler (a thrown check inside a transaction, or a
database constraint violation). -/
inductive Err
  | forbidden
  | notFound
  | serverError
deriving DecidableEq, Repr

/-- Result of a route: a value or an error response. -/
inductive Outcome (α : Type)
  | ok (val : α)
  | fail (e : Err)
deriving DecidableEq, Repr

/-- SELECT role FROM board_members WHERE board_id = $1 AND user_id = $2,
reading the first returned row (rows[0]), as the routes do. -/
def roleOf (members : List MemberRow) (boardId userId : Nat) : Option Role :=
  (members.find? fun m => decide (m.boardId = boardId ∧ m.userId = userId)).map
    MemberRow.role

/-- checkBoardPermission middleware (index.js lines 909-938): deny when the
caller has no membership row, deny when rank of the caller role is below the
rank of the required role, allow otherwise. -/
def checkBoardPermission (required : Role) (memberRole : Option Role) : Bool :=
  match memberRole with
  | none => false
  | some r => if r.rank < required.rank then false else true

/-- The middleware applied to a concrete membership table. -/
def checkBoardPermissionOn (members : List MemberRow) (boardId userId : Nat)
    (required : Role) : Bool :=
  checkBoardPermission required (roleOf members boardId userId)

/-- The position column of the tasks of one list, in row order
(SELECT position FROM tasks WHERE list_id = $1). -/
def positionsOf (tasks : List TaskRow) (listId : Nat) : List Nat :=
  (tasks.filter fun t => decide (t.listId = listId)).map TaskRow.position

/-- SELECT COALESCE(MAX(position), 0) + 1 FROM tasks WHERE list_id = $1
(index.js lines 373-376). -/
def nextTaskPos (tasks : List TaskRow) (listId : Nat) : Nat :=
  (positionsOf tasks listId).foldr max 0 + 1

/-- POST /api/lists/:listId/tasks (index.js lines 369-385): read the next
position, INSERT the new row.  newId stands for the SERIAL id. -/
def createTask (tasks : List TaskRow) (listId newId : Nat) : List TaskRow :=
  tasks ++ [{ id := newId, listId := listId, position := nextTaskPos tasks listId }]

/-- UPDATE tasks SET position = position + 1 WHERE list_id = $1 AND
position >= $2 (index.js lines 397-401). -/
def shiftDest (tasks : List TaskRow) (destListId newPosition : Nat) : List TaskRow :=
  tasks.map fun t =>
    if t.listId = destListId ∧ newPosition ≤ t.position then
      { t with position := t.position + 1 }
    else t

/-- UPDATE tasks SET list_id = $1, position = $2 WHERE id = $3
(index.js lines 405-410). -/
def setTaskRow (tasks : List TaskRow) (taskId destListId newPosition : Nat) :
    List TaskRow :=
  tasks.map fun t =>
    if t.id = taskId then { t with listId := destListId, position := newPosition }
    else t

/-- The transaction body of PATCH /api/tasks/:taskId/move (index.js lines
388-422): the destination shift followed by the row update, committed
together. -/
def moveTask (tasks : List TaskRow) (taskId destListId newPosition : Nat) :
    List TaskRow :=
  setTaskRow (shiftDest tasks destListId newPosition) taskId destListId newPosition

/-- The whole PATCH /api/tasks/:taskId/move route.  After authenticateToken
the route reads only the task id and the body; it issues no board_members
query, so the membership table and the caller id are never consulted and the
transaction always commits. -/
def moveTaskEndpoint (members : List MemberRow) (callerId : Nat)
    (tasks : List TaskRow) (taskId destListId newPosition : Nat) :
    Outcome (List TaskRow) :=
  Outcome.ok (moveTask tasks taskId destListId newPosition)

/-- The position column of the lists of one board, in row order. -/
def listPositionsOf (lists : List ListRow) (boardId : Nat) : List Nat :=
  (lists.filter fun l => decide (l.boardId = boardId)).map ListRow.position

/-- SELECT COALESCE(MAX(position), 0) + 1 FROM lists WHERE board_id = $1
(index.js lines 344-347). -/
def nextListPos (lists : List ListRow) (boardId : Nat) : Nat :=
  (listPositionsOf lists boardId).foldr max 0 + 1

/-- One row of boards: (id, user_id). -/
structure BoardRow where
  id : Nat
  userId : Nat
deriving DecidableEq, Repr

/-- POST /api/boards/:boardId/lists (index.js lines 328-366): 404 unless a
boards row has this id with user_id equal to the caller, otherwise INSERT a
list at the next position. -/
def createList (boards : List BoardRow) (lists : List ListRow)
    (boardId callerId newId : Nat) : Outcome (ListRow × List ListRow) :=
  if boards.any (fun b => decide (b.id = boardId ∧ b.userId = callerId)) then
    let row : ListRow :=
      { id := newId, boardId := boardId, position := nextListPos lists boardId }
    Outcome.ok (row, lists ++ [row])
  else Outcome.fail Err.notFound

/-- UPDATE lists SET position = position + 1 WHERE board_id = $1 AND
position >= $2 (index.js lines 813-817). -/
def shiftLists (lists : List ListRow) (boardId position : Nat) : List ListRow :=
  lists.map fun l =>
    if l.boardId = boardId ∧ position ≤ l.position then
      { l with position := l.position + 1 }
    else l

/-- UPDATE lists SET position = $1 WHERE id = $2 (index.js lines 820-825). -/
def setListRow (lists : List ListRow) (listId position : Nat) : List ListRow :=
  lists.map fun l => if l.id = listId then { l with position := position } else l

/-- The transaction body of PATCH /api/lists/:listId/move: shift then row
update. -/
def applyMoveList (lists : List ListRow) (listId position boardId : Nat) :
    List ListRow :=
  setListRow (shiftLists lists boardId position) listId position

/-- PATCH /api/lists/:listId/move (index.js lines 791-837): unless the
caller has a membership row on the board of the moved list, the route throws
inside the transaction and the catch answers a 500 (Error moving list);
otherwise it runs the transaction body.  Note the body-supplied boardId
drives the shift while the row update touches the moved list regardless. -/
def moveList (members : List MemberRow) (lists : List ListRow)
    (listId position boardId callerId : Nat) : Outcome (List ListRow) :=
  if lists.any (fun l => decide (l.id = listId) &&
      members.any fun m => decide (m.boardId = l.boardId ∧ m.userId = callerId)) then
    Outcome.ok (applyMoveList lists listId position boardId)
  else Outcome.fail Err.serverError

/-- True when the caller holds an owner row on the board
(the permission query of the member routes). -/
def isOwnerOn (members : List MemberRow) (boardId callerId : Nat) : Bool :=
  members.any fun m =>
    decide (m.boardId = boardId ∧ m.userId = callerId ∧ m.role = Role.owner)

/-- DELETE /api/boards/:boardId/members/:memberId (index.js lines 840-874):
403 unless the caller has an owner or admin row; 403 when the first row of
the target lookup has role owner; otherwise DELETE the target rows and answer
with the success message. -/
def removeMember (members : List MemberRow) (boardId callerId targetId : Nat) :
    Outcome (String × List MemberRow) :=
  if (members.any fun m => decide (m.boardId = boardId ∧ m.userId = callerId ∧
      (m.role = Role.owner ∨ m.role = Role.admin))) = true then
    if roleOf members boardId targetId = some Role.owner then
      Outcome.fail Err.forbidden
    else
      Outcome.ok ("Member removed successfully",
        members.filter fun m => decide (¬ (m.boardId = boardId ∧ m.userId = targetId)))
  else Outcome.fail Err.forbidden

/-- PATCH /api/boards/:boardId/members/:memberId (index.js lines 877-906):
403 unless the caller has an owner row; otherwise UPDATE the role of every
row of the target on that board, with no check on the target role and none on
the requested role. -/
def changeMemberRole (members : List MemberRow) (boardId callerId targetId : Nat)
    (newRole : Role) : Outcome (List MemberRow) :=
  if isOwnerOn members boardId callerId = true then
    Outcome.ok (members.map fun m =>
      if m.boardId = boardId ∧ m.userId = targetId then { m with role := newRole }
      else m)
  else Outcome.fail Err.forbidden

/-- POST /api/boards/:boardId/members (index.js lines 427-455): 403 unless
the caller has an owner row; the INSERT stores the requested role as sent,
defaulting to member only when the body carries none; an existing
(board_id, user_id) row makes the INSERT hit the UNIQUE constraint of the
schema, surfaced as a 500. -/
def addMember (members : List MemberRow) (boardId callerId targetUserId : Nat)
    (requestedRole : Option Role) : Outcome (MemberRow × List MemberRow) :=
  if isOwnerOn members boardId callerId = true then
    if members.any (fun m => decide (m.boardId = boardId ∧ m.userId = targetUserId)) then
      Outcome.fail Err.serverError
    else
      let row : MemberRow :=
        { boardId := boardId, userId := targetUserId,
          role := requestedRole.getD Role.member }
      Outcome.ok (row, members ++ [row])
  else Outcome.fail Err.forbidden

/-- An operation on the task table: a createTask call or a moveTask call. -/
inductive TaskOp
  | create (listId : Nat)
  | move (taskId destListId newPosition : Nat)
deriving DecidableEq, Repr

/-- The task table together with the next SERIAL id. -/
structure TaskState where
  tasks : List TaskRow
  nextId : Nat
deriving DecidableEq, Repr

/-- Apply one operation through the corresponding route body. -/
def applyTaskOp (s : TaskState) : TaskOp → TaskState
  | TaskOp.create l => { tasks := createTask s.tasks l s.nextId, nextId := s.nextId + 1 }
  | TaskOp.move t d p => { tasks := moveTask s.tasks t d p, nextId := s.nextId }

/-- Run a sequence of operations from the empty table. -/
def applyTaskOps (ops : List TaskOp) : TaskState :=
  ops.foldl applyTaskOp { tasks := [], nextId := 0 }

/-- Insert into a sorted list of naturals. -/
def insertAsc (x : Nat) : List Nat → List Nat
  | [] => [x]
  | y :: ys => if x ≤ y then x :: y :: ys else y :: insertAsc x ys

/-- Insertion sort, ascending. -/
def sortedAsc (l : List Nat) : List Nat := l.foldr insertAsc []

/-- The density property in the words of the specification: the sorted
positions of the sibling-set equal 0, 1, ..., n-1. -/
def densePositions (tasks : List TaskRow) (listId : Nat) : Prop :=
  sortedAsc (positionsOf tasks listId) =
    List.range (positionsOf tasks listId).length

/-- N sequential createTask calls against one list, each call issuing its
position read and its INSERT back to back. -/
def serialCreates (listId n : Nat) : List TaskRow :=
  (List.range n).foldl (fun ts i => createTask ts listId i) []

/-- State of N concurrent createTask transactions over one list: the task
table, the position each client has read (none before its SELECT ran), and
whether each client has run its INSERT. -/
structure ConcState where
  tasks : List TaskRow
  locals : List (Option Nat)
  written : List Bool
deriving DecidableEq, Repr

/-- Initial concurrent state for n clients on an empty list. -/
def concInit (n : Nat) : ConcState :=
  { tasks := [], locals := List.replicate n none, written := List.replicate n false }

/-- One scheduler step giving client c its next query.  createTask runs its
SELECT COALESCE(MAX(position), 0) + 1 and its INSERT as two separate pool
queries with no transaction around them, so the two steps of different
clients may interleave freely. -/
def concStep (listId : Nat) (s : ConcState) (c : Nat) : ConcState :=
  match s.locals.getD c none with
  | none =>
      { s with locals := s.locals.set c (some (nextTaskPos s.tasks listId)) }
  | some p =>
      if s.written.getD c false then s
      else
        { s with
          tasks := s.tasks ++ [{ id := c, listId := listId, position := p }],
          written := s.written.set c true }

/-- Run a schedule (a list of client indices) over n clients. -/
def runConc (listId n : Nat) (sched : List Nat) : ConcState :=
  sched.foldl (concStep listId) (concInit n)

/-- The example board of the specification: list 1 holds tasks 1, 2, 3 at
positions 0, 1, 2 and list 2 holds task 4 at position 0. -/
def demoTasks : List TaskRow :=
  [{ id := 1, listId := 1, position := 0 },
   { id := 2, listId := 1, position := 1 },
   { id := 3, listId := 1, position := 2 },
   { id := 4, listId := 2, position := 0 }]

/-- A two task list used for the no-op move claim. -/
def pairTasks : List TaskRow :=
  [{ id := 1, listId := 1, position := 0 },
   { id := 2, listId := 1, position := 1 }]

/-- A two list board used for the no-op move claim. -/
def pairLists : List ListRow :=
  [{ id := 1, boardId := 1, position := 0 },
   { id := 2, boardId := 1, position := 1 }]

/-- A board with user 1 as owner and user 2 as plain member. -/
def demoMembers : List MemberRow :=
  [{ boardId := 1, userId := 1, role := Role.owner },
   { boardId := 1, userId := 2, role := Role.member }]

/-- A board with user 1 as its only member, the owner. -/
def soloOwner : List MemberRow :=
  [{ boardId := 1, userId := 1, role := Role.owner }]

/-- Two lists of board 1, used to exhibit the list move whose request body
names a different boardId than the board the moved list belongs to. -/
def crossedLists : List ListRow :=
  [{ id := 1, boardId := 1, position := 0 },
   { id := 2, boardId := 1, position := 1 }]

/-- Row image of one moveTask transaction: the moved row gets the new list
and position, every other destination row at or past the target position
shifts up by one, and all remaining rows are untouched. -/
def moveFun (taskId destListId newPosition : Nat) (t : TaskRow) : TaskRow :=
  if t.id = taskId then { t with listId := destListId, position := newPosition }
  else if t.listId = destListId ∧ newPosition ≤ t.position then
    { t with position := t.position + 1 }
  else t

/-- Row image of one list move transaction body. -/
def listMoveFun (listId position boardId : Nat) (l : ListRow) : ListRow :=
  if l.id = listId then { l with position := position }
  else if l.boardId = boardId ∧ position ≤ l.position then
    { l with position := l.position + 1 }
  else l

/-- Pairwise distinctness of task ids together with distinctness of
positions inside every list. -/
def PosOk (tasks : List TaskRow) : Prop :=
  tasks.Pairwise fun t u => t.id ≠ u.id ∧ (t.listId = u.listId → t.position ≠ u.position)

/-- The invariant carried through operation sequences: PosOk plus freshness
of the id counter. -/
def TaskInv (s : TaskState) : Prop :=
  PosOk s.tasks ∧ ∀ t ∈ s.tasks, t.id < s.nextId

/-! ### General lemmas about the embedded operations -/

theorem le_foldr_max (l : List Nat) (x : Nat) (hx : x ∈ l) : x ≤ l.foldr max 0 := by
  induction l with
  | nil => cases hx
  | cons a t ih =>
      rcases List.mem_cons.mp hx with h | h
      · subst h; exact Nat.le_max_left _ _
      · exact Nat.le_trans (ih h) (Nat.le_max_right _ _)

theorem foldr_max_absorb (l : List Nat) (b : Nat) :
    l.foldr max b = max (l.foldr max 0) b := by
  induction l with
  | nil => simp
  | cons a t ih => simp [ih, Nat.max_assoc]

theorem mem_positionsOf {tasks : List TaskRow} {t : TaskRow} {l : Nat}
    (ht : t ∈ tasks) (hl : t.listId = l) : t.position ∈ positionsOf tasks l := by
  unfold positionsOf
  exact List.mem_map.mpr ⟨t, List.mem_filter.mpr ⟨ht, by simp [hl]⟩, rfl⟩

theorem positionsOf_append (ts : List TaskRow) (row : TaskRow) (l : Nat)
    (h : row.listId = l) :
    positionsOf (ts ++ [row]) l = positionsOf ts l ++ [row.position] := by
  simp [positionsOf, List.filter_append, h]

theorem moveTask_eq_map (ts : List TaskRow) (i d p : Nat) :
    moveTask ts i d p = ts.map (moveFun i d p) := by
  unfold moveTask setTaskRow shiftDest
  rw [List.map_map]
  apply List.map_congr_left
  intro t _
  cases t with
  | mk tid tl tp =>
      by_cases h1 : tl = d ∧ p ≤ tp
      · by_cases h2 : tid = i <;> simp [moveFun, Function.comp, h1, h2]
      · by_cases h2 : tid = i <;> simp [moveFun, Function.comp, h1, h2]

theorem applyMoveList_eq_map (ls : List ListRow) (i p b : Nat) :
    applyMoveList ls i p b = ls.map (listMoveFun i p b) := by
  unfold applyMoveList setListRow shiftLists
  rw [List.map_map]
  apply List.map_congr_left
  intro l _
  cases l with
  | mk lid lb lp =>
      by_cases h1 : lb = b ∧ p ≤ lp
      · by_cases h2 : lid = i <;> simp [listMoveFun, Function.comp, h1, h2]
      · by_cases h2 : lid = i <;> simp [listMoveFun, Function.comp, h1, h2]

theorem moveFun_id (i d p : Nat) (t : TaskRow) : (moveFun i d p t).id = t.id := by
  cases t; unfold moveFun; split_ifs <;> rfl

theorem moveFun_keeps (i d p : Nat) (t u : TaskRow)
    (hid : t.id ≠ u.id) (hpos : t.listId = u.listId → t.position ≠ u.position) :
    (moveFun i d p t).id ≠ (moveFun i d p u).id ∧
      ((moveFun i d p t).listId = (moveFun i d p u).listId →
        (moveFun i d p t).position ≠ (moveFun i d p u).position) := by
  refine ⟨by rw [moveFun_id, moveFun_id]; exact hid, ?_⟩
  cases t with
  | mk tid tl tp =>
  cases u with
  | mk uid ul up =>
  unfold moveFun
  split_ifs <;> simp_all <;> omega

theorem posOk_nodup {tasks : List TaskRow} (h : PosOk tasks) (l : Nat) :
    (positionsOf tasks l).Nodup := by
  unfold positionsOf
  unfold List.Nodup
  rw [List.pairwise_map]
  refine List.Pairwise.imp_of_mem ?_ (List.Pairwise.filter _ h)
  intro a b ha hb hab
  have ha' := of_decide_eq_true (List.mem_filter.mp ha).2
  have hb' := of_decide_eq_true (List.mem_filter.mp hb).2
  exact hab.2 (ha'.trans hb'.symm)

theorem taskInv_create {s : TaskState} (h : TaskInv s) (l : Nat) :
    TaskInv (applyTaskOp s (TaskOp.create l)) := by
  obtain ⟨hP, hId⟩ := h
  refine ⟨?_, ?_⟩
  · show PosOk (createTask s.tasks l s.nextId)
    unfold createTask PosOk
    rw [List.pairwise_append]
    refine ⟨hP, List.pairwise_singleton _ _, ?_⟩
    intro a ha b hb
    have hb' := List.mem_singleton.mp hb
    subst hb'
    refine ⟨Nat.ne_of_lt (hId a ha), ?_⟩
    intro hEq hcontra
    have hmem : a.position ∈ positionsOf s.tasks l := mem_positionsOf ha hEq
    have hle := le_foldr_max _ _ hmem
    have : a.position = (positionsOf s.tasks l).foldr max 0 + 1 := hcontra
    omega
  · intro t ht
    show t.id < s.nextId + 1
    rcases List.mem_append.mp ht with h1 | h1
    · exact Nat.lt_succ_of_lt (hId t h1)
    · have := List.mem_singleton.mp h1
      subst this
      exact Nat.lt_succ_self _

theorem taskInv_move {s : TaskState} (h : TaskInv s) (i d p : Nat) :
    TaskInv (applyTaskOp s (TaskOp.move i d p)) := by
  obtain ⟨hP, hId⟩ := h
  refine ⟨?_, ?_⟩
  · show PosOk (moveTask s.tasks i d p)
    rw [moveTask_eq_map]
    unfold PosOk at *
    rw [List.pairwise_map]
    exact List.Pairwise.imp (fun hab => moveFun_keeps i d p _ _ hab.1 hab.2) hP
  · intro t ht
    show t.id < s.nextId
    replace ht : t ∈ moveTask s.tasks i d p := ht
    rw [moveTask_eq_map] at ht
    rcases List.mem_map.mp ht with ⟨u, hu, rfl⟩
    rw [moveFun_id]
    exact hId u hu

theorem taskInv_empty : TaskInv { tasks := [], nextId := 0 } :=
  ⟨List.Pairwise.nil, fun t ht => absurd ht (List.not_mem_nil t)⟩

theorem taskInv_fold (ops : List TaskOp) (s : TaskState) (h : TaskInv s) :
    TaskInv (ops.foldl applyTaskOp s) := by
  induction ops generalizing s with
  | nil => exact h
  | cons op rest ih =>
      apply ih
      cases op with
      | create l => exact taskInv_create h l
      | move i d p => exact taskInv_move h i d p

theorem serialCreates_succ (l n : Nat) :
    serialCreates l (n + 1) = createTask (serialCreates l n) l n := by
  unfold serialCreates
  rw [List.range_succ, List.foldl_append]
  rfl

theorem foldr_max_range' (n : Nat) : (List.range' 1 n).foldr max 0 = n := by
  induction n with
  | zero => rfl
  | succ k ih =>
      rw [List.range'_concat, List.foldr_append]
      have h1 : List.foldr max 0 [1 + 1 * k] = k + 1 := by
        simp [Nat.add_comm]
      rw [h1, foldr_max_absorb, ih]
      omega

theorem serial_positions_eq (l n : Nat) :
    positionsOf (serialCreates l n) l = List.range' 1 n := by
  induction n with
  | zero => rfl
  | succ k ih =>
      rw [serialCreates_succ]
      unfold createTask
      rw [positionsOf_append _ _ _ rfl, ih]
      unfold nextTaskPos
      rw [ih, foldr_max_range']
      have h2 : 1 + 1 * k = k + 1 := by omega
      rw [List.range'_concat, h2]

/-! ### The claims -/

/-- C1, counterexample: the very first create on an empty list stores
position 1, so the sibling-set of size 1 has positions {1}, not {0}; the
density property of the claim already fails after one operation. -/
theorem C1_not_dense :
    ¬ densePositions (applyTaskOps [TaskOp.create 1]).tasks 1 := by
  unfold densePositions
  decide

/-- C1 (amended): for task sibling-sets, after every sequence of create and
move operations run from the empty table, the positions inside each list are
pairwise distinct, though never dense (n serial creates store 1..n, and a
move leaves a gap in the source list).  For list sibling-sets even
distinctness is not preserved: the list move shifts positions in the
request-body boardId while the moved row's position is written regardless,
so a single move whose body boardId (here 99) differs from the real board of
the moved list commits a duplicate position inside the real board.  The
repository has no task or list delete route. -/
theorem C1_positions_nodup :
    (∀ ops listId, (positionsOf (applyTaskOps ops).tasks listId).Nodup) ∧
    listPositionsOf (applyMoveList crossedLists 2 0 99) 1 = [0, 0] ∧
    ¬ (listPositionsOf (applyMoveList crossedLists 2 0 99) 1).Nodup := by
  refine ⟨fun ops listId => posOk_nodup (taskInv_fold ops _ taskInv_empty).1 listId,
    by decide, by decide⟩

/-- C2, counterexample: in the example scenario the source list keeps
positions [1, 2] for tasks 2 and 3 instead of the claimed [0, 1]. -/
theorem C2_source_not_relinearized :
    ¬ (positionsOf (moveTask demoTasks 1 2 0) 1 = [0, 1]) := by decide

/-- C2 (amended): moving task 1 from list 1 to index 0 of list 2 shifts the
destination (task 4 to position 1, task 1 placed at 0) but does not touch
the source list, whose remaining tasks keep their old positions 1 and 2. -/
theorem C2_crossMove_result :
    moveTask demoTasks 1 2 0 =
      [{ id := 1, listId := 2, position := 0 },
       { id := 2, listId := 1, position := 1 },
       { id := 3, listId := 1, position := 2 },
       { id := 4, listId := 2, position := 1 }] ∧
    positionsOf (moveTask demoTasks 1 2 0) 2 = [0, 1] ∧
    positionsOf (moveTask demoTasks 1 2 0) 1 = [1, 2] := by decide

/-- C3, counterexample: user 99 is a member of no board, yet the move
route succeeds and changes the task table. -/
theorem C3_nonmember_move_succeeds :
    roleOf soloOwner 1 99 = none ∧ roleOf soloOwner 2 99 = none ∧
    moveTaskEndpoint soloOwner 99 demoTasks 1 2 0 =
      Outcome.ok (moveTask demoTasks 1 2 0) ∧
    ¬ (moveTask demoTasks 1 2 0 = demoTasks) := by decide

/-- C3 (amended): the task move route consults no membership row at all:
for every membership table and every caller it commits the move and never
answers Forbidden. -/
theorem C3_move_unauthorized_ok (members : List MemberRow) (callerId : Nat)
    (tasks : List TaskRow) (taskId destListId newPosition : Nat) :
    moveTaskEndpoint members callerId tasks taskId destListId newPosition =
      Outcome.ok (moveTask tasks taskId destListId newPosition) := rfl

/-- C4, counterexample: the first task created in an empty list gets
position 1, not position 0 = sibling count. -/
theorem C4_first_insert_position_one :
    (createTask [] 1 0).map TaskRow.position = [1] ∧
    ¬ ((createTask [] 1 0).map TaskRow.position = [0]) := by decide

/-- C4 (amended): a create with no explicit target appends the row at
COALESCE(MAX(position), 0) + 1, a value strictly above every sibling
position; on an empty sibling-set this is 1, not the sibling count 0.
Both the task route and the list route allocate this way. -/
theorem C4_append_position (tasks : List TaskRow) (lists : List ListRow)
    (listId boardId nid : Nat) :
    createTask tasks listId nid =
      tasks ++ [{ id := nid, listId := listId, position := nextTaskPos tasks listId }] ∧
    ((positionsOf tasks listId).all fun q => decide (q < nextTaskPos tasks listId)) = true ∧
    nextTaskPos [] listId = 1 ∧
    ((listPositionsOf lists boardId).all fun q => decide (q < nextListPos lists boardId)) = true ∧
    nextListPos [] boardId = 1 := by
  refine ⟨rfl, ?_, rfl, ?_, rfl⟩
  · rw [List.all_eq_true]
    intro q hq
    have h := le_foldr_max _ _ hq
    unfold nextTaskPos
    exact decide_eq_true (by omega)
  · rw [List.all_eq_true]
    intro q hq
    have h := le_foldr_max _ _ hq
    unfold nextListPos
    exact decide_eq_true (by omega)

/-- C5: the permission middleware allows exactly the callers holding a
membership row whose role rank reaches the required rank; a non-member is
denied for every required role. -/
theorem C5_authorize_iff (members : List MemberRow) (b uid : Nat) (req : Role) :
    checkBoardPermissionOn members b uid req = true ↔
      ∃ r : Role, roleOf members b uid = some r ∧ req.rank ≤ r.rank := by
  unfold checkBoardPermissionOn checkBoardPermission
  cases h : roleOf members b uid with
  | none => simp
  | some r =>
      simp only [Option.some.injEq]
      split_ifs with hlt
      · simp only [Bool.false_eq_true, false_iff]
        rintro ⟨r', rfl, hle⟩
        omega
      · simp only [true_iff]
        exact ⟨r, rfl, by omega⟩

/-- C6, counterexample: the role change route demotes the board owner and
also assigns the owner role, both with success, because it checks only the
caller. -/
theorem C6_owner_demoted :
    roleOf demoMembers 1 1 = some Role.owner ∧
    changeMemberRole demoMembers 1 1 1 Role.member =
      Outcome.ok [{ boardId := 1, userId := 1, role := Role.member },
                  { boardId := 1, userId := 2, role := Role.member }] ∧
    changeMemberRole demoMembers 1 1 2 Role.owner =
      Outcome.ok [{ boardId := 1, userId := 1, role := Role.owner },
                  { boardId := 1, userId := 2, role := Role.owner }] := by decide

/-- C6 (amended): removeMember does answer Forbidden whenever the target
holds the owner role, for every caller; changeMemberRole, however, guards
only the caller: any owner caller may set any role on any target, including
demoting the owner and assigning the owner role. -/
theorem C6_owner_protection (members : List MemberRow) (b c t : Nat) (r : Role) :
    (roleOf members b t = some Role.owner →
      removeMember members b c t = Outcome.fail Err.forbidden) ∧
    (isOwnerOn members b c = true →
      changeMemberRole members b c t r =
        Outcome.ok (members.map fun m =>
          if m.boardId = b ∧ m.userId = t then { m with role := r } else m)) := by
  constructor
  · intro h
    unfold removeMember
    by_cases h1 : (members.any fun m => decide (m.boardId = b ∧ m.userId = c ∧
        (m.role = Role.owner ∨ m.role = Role.admin))) = true
    · rw [if_pos h1, if_pos h]
    · rw [if_neg h1]
  · intro h
    unfold changeMemberRole
    rw [if_pos h]

/-- C7, counterexample: moving task 1 to index 0, the index it already
occupies in list 1, changes the position of task 2 from 1 to 2. -/
theorem C7_not_noop :
    ¬ (positionsOf (moveTask pairTasks 1 1 0) 1 = positionsOf pairTasks 1) := by
  decide

/-- C7 (amended): a move of an entity to its current index is not a no-op:
the moved row itself is unchanged, but every other sibling of the same
container at a position at or past that index is shifted up by one; the
task route and the list route shift alike. -/
theorem C7_same_index_shift (tasks : List TaskRow) (t : TaskRow)
    (lists : List ListRow) (l : ListRow)
    (htu : ∀ u ∈ tasks, u.id = t.id → u = t)
    (hlv : ∀ v ∈ lists, v.id = l.id → v = l) :
    moveTask tasks t.id t.listId t.position =
      tasks.map (fun u =>
        if u.id = t.id then u
        else if u.listId = t.listId ∧ t.position ≤ u.position then
          { u with position := u.position + 1 }
        else u) ∧
    applyMoveList lists l.id l.position l.boardId =
      lists.map (fun v =>
        if v.id = l.id then v
        else if v.boardId = l.boardId ∧ l.position ≤ v.position then
          { v with position := v.position + 1 }
        else v) := by
  constructor
  · rw [moveTask_eq_map]
    apply List.map_congr_left
    intro u hu
    by_cases h : u.id = t.id
    · have hh := htu u hu h
      subst hh
      cases u with
      | mk a b c => simp [moveFun]
    · cases u with
      | mk a b c => simp [moveFun, h]
  · rw [applyMoveList_eq_map]
    apply List.map_congr_left
    intro v hv
    by_cases h : v.id = l.id
    · have hh := hlv v hv h
      subst hh
      cases v with
      | mk a b c => simp [listMoveFun]
    · cases v with
      | mk a b c => simp [listMoveFun, h]

/-- C7 witness at the two element tables. -/
theorem C7_same_index_shift_witness :
    moveTask pairTasks 1 1 0 =
      pairTasks.map (fun u =>
        if u.id = 1 then u
        else if u.listId = 1 ∧ 0 ≤ u.position then
          { u with position := u.position + 1 }
        else u) ∧
    applyMoveList pairLists 1 0 1 =
      pairLists.map (fun v =>
        if v.id = 1 then v
        else if v.boardId = 1 ∧ 0 ≤ v.position then
          { v with position := v.position + 1 }
        else v) :=
  C7_same_index_shift pairTasks { id := 1, listId := 1, position := 0 }
    pairLists { id := 1, boardId := 1, position := 0 } (by decide) (by decide)

/-- C8, counterexample: an owner caller adds user 2 with the requested role
owner, and the insert stores that owner role. -/
theorem C8_owner_role_stored :
    addMember soloOwner 1 1 2 (some Role.owner) =
      Outcome.ok ({ boardId := 1, userId := 2, role := Role.owner },
        soloOwner ++ [{ boardId := 1, userId := 2, role := Role.owner }]) := by decide

/-- C8 (amended): addMember does succeed only for an owner caller, but the
stored role is the requested role taken verbatim, defaulting to member only
when the request carries no role; the owner role passes through unchecked. -/
theorem C8_addMember_stores_request (members : List MemberRow) (b c t : Nat)
    (r : Option Role) (row : MemberRow) (rest : List MemberRow)
    (h : addMember members b c t r = Outcome.ok (row, rest)) :
    isOwnerOn members b c = true ∧ row.role = r.getD Role.member ∧
      rest = members ++ [row] := by
  unfold addMember at h
  split_ifs at h with h1 h2
  all_goals cases h
  all_goals exact ⟨h1, rfl, rfl⟩

/-- C8 witness: the owner of the solo board adds user 2 with no requested
role; the stored role is member. -/
theorem C8_addMember_witness :
    isOwnerOn soloOwner 1 1 = true ∧
    ({ boardId := 1, userId := 2, role := Role.member } : MemberRow).role =
      (none : Option Role).getD Role.member ∧
    soloOwner ++ [{ boardId := 1, userId := 2, role := Role.member }] =
      soloOwner ++ [{ boardId := 1, userId := 2, role := Role.member }] :=
  C8_addMember_stores_request soloOwner 1 1 2 none
    { boardId := 1, userId := 2, role := Role.member }
    (soloOwner ++ [{ boardId := 1, userId := 2, role := Role.member }]) (by decide)

/-- C9, counterexample: two concurrent createTask calls on the empty list 5,
interleaved read, read, insert, insert, both read next position 1 and both
store it, so the received positions are [1, 1] with a duplicate. -/
theorem C9_interleaving_duplicate :
    positionsOf (runConc 5 2 [0, 1, 0, 1]).tasks 5 = [1, 1] ∧
    ¬ (positionsOf (runConc 5 2 [0, 1, 0, 1]).tasks 5).Nodup := by decide

/-- C9 (amended): without interleaving, n createTask calls on an empty list
receive the distinct positions 1..n (not 0..n-1); with interleaving the
counterexample shows duplicates, since the position read and the insert are
two separate queries with no transaction. -/
theorem C9_serial_positions (l n : Nat) :
    positionsOf (serialCreates l n) l = List.range' 1 n ∧
    (positionsOf (serialCreates l n) l).Nodup := by
  refine ⟨serial_positions_eq l n, ?_⟩
  rw [serial_positions_eq l n]
  exact List.nodup_range' 1 n

/-- C10: removing a target with no membership row, as an owner or admin
caller, deletes nothing and still answers the success message, leaving the
membership table unchanged. -/
theorem C10_remove_absent_member (members : List MemberRow) (b c t : Nat)
    (hcaller : (members.any fun m => decide (m.boardId = b ∧ m.userId = c ∧
      (m.role = Role.owner ∨ m.role = Role.admin))) = true)
    (htarget : ∀ m ∈ members, ¬ (m.boardId = b ∧ m.userId = t)) :
    removeMember members b c t =
      Outcome.ok ("Member removed successfully", members) := by
  unfold removeMember
  rw [if_pos hcaller]
  have hfind : (members.find? fun m => decide (m.boardId = b ∧ m.userId = t)) = none :=
    List.find?_eq_none.mpr (fun m hm => by simpa using htarget m hm)
  have hrole : roleOf members b t = none := by
    unfold roleOf
    rw [hfind]
    rfl
  rw [if_neg (by simp [hrole])]
  have hfilter :
      (members.filter fun m => decide (¬ (m.boardId = b ∧ m.userId = t))) = members :=
    List.filter_eq_self.mpr fun m hm => decide_eq_true (htarget m hm)
  rw [hfilter]

/-- C10 witness: owner 1 removes the absent user 5 from the solo board. -/
theorem C10_remove_absent_member_witness :
    removeMember soloOwner 1 1 5 =
      Outcome.ok ("Member removed successfully", soloOwner) :=
  C10_remove_absent_member soloOwner 1 1 5 (by decide) (by decide)

end Todo
